import Mathlib

/-!
Verification development for the openrouter-cli repository (multi-provider
variant of `main.go`).

The program is a command-line client that forwards one prompt to one of three
chat-completion HTTP APIs and prints the reply, optionally streaming.  The
spec names the providers CloudAggregator, LocalServerA and LocalServerB; in
the source they are `openrouter`, `ollama` and `lmstudio` respectively.

This file embeds the pure core of the program:
  * a JSON value type and a parser/serializer modeling Go's `encoding/json`
    as used by the program (`json.Unmarshal` into the fixed struct types
    `OpenRouterRequest`, `OpenRouterResponse`, `OllamaResponse`, and
    `json.Marshal` of the request bodies);
  * `prepareInput` and the request-body construction in `sendRequest` /
    `sendStreamingRequest` (the spec's Request Builder);
  * the response-interpretation logic of `sendRequest` (the spec's
    `parseComplete`) and the two streaming line loops of
    `sendStreamingRequest` (the spec's `parseStream`).

Machine-level I/O (HTTP transport, timeouts, stdout) is outside the embedded
core; the streaming loops are modeled on the list of text lines produced by
the line scanner, with the end of the list corresponding to a clean EOF of
the response body.
-/

/-- JSON values.  Numbers keep their raw lexed text: the program's struct
types contain no numeric field, so a number can only ever participate in a
type mismatch, for which the value is irrelevant. -/
inductive Json where
  | null
  | bool (b : Bool)
  | num (raw : String)
  | str (s : String)
  | arr (elems : List Json)
  | obj (fields : List (String × Json))

/-- Whitespace skipped by Go's JSON scanner: space, tab, newline, carriage
return. -/
def skipWs : List Char → List Char
  | [] => []
  | c :: cs => if c = ' ' ∨ c = '\t' ∨ c = '\n' ∨ c = '\r' then skipWs cs else c :: cs

/-- Value of one hexadecimal digit. -/
def hexVal (c : Char) : Option Nat :=
  if '0' ≤ c ∧ c ≤ '9' then some (c.toNat - 48)
  else if 'a' ≤ c ∧ c ≤ 'f' then some (c.toNat - 87)
  else if 'A' ≤ c ∧ c ≤ 'F' then some (c.toNat - 55)
  else none

/-- Decode one single-character escape of a JSON string (the character
after a backslash, other than a `u`). -/
def unescapeShort (e : Char) : Option Char :=
  if e = '\"' then some '\"'
  else if e = '\\' then some '\\'
  else if e = '/' then some '/'
  else if e = 'b' then some (Char.ofNat 8)
  else if e = 'f' then some (Char.ofNat 12)
  else if e = 'n' then some '\n'
  else if e = 'r' then some '\r'
  else if e = 't' then some '\t'
  else none

/-- Lex the body of a JSON string after the opening quote, up to and
including the closing quote.  Returns the decoded characters and the rest
of the input.  Raw control characters are rejected, as Go's scanner does.
Go folds unpaired surrogate `\u` escapes to U+FFFD; `Char.ofNat` maps those
invalid scalar values to NUL instead — no input of interest contains
surrogate escapes. -/
def lexStr : List Char → Option (List Char × List Char)
  | [] => none
  | c :: cs =>
    if c = '\"' then some ([], cs)
    else if c = '\\' then
      match cs with
      | [] => none
      | e :: cs2 =>
        if e = 'u' then
          match cs2 with
          | h1 :: h2 :: h3 :: h4 :: cs3 =>
            match hexVal h1, hexVal h2, hexVal h3, hexVal h4 with
            | some a, some b, some c2, some d =>
              (lexStr cs3).map
                (fun q => (Char.ofNat (((a * 16 + b) * 16 + c2) * 16 + d) :: q.1, q.2))
            | _, _, _, _ => none
          | _ => none
        else
          match unescapeShort e with
          | some d => (lexStr cs2).map (fun q => (d :: q.1, q.2))
          | none => none
    else if c.toNat < 32 then none
    else (lexStr cs).map (fun q => (c :: q.1, q.2))

/-- Is the character an ASCII digit. -/
def isDigitCh (c : Char) : Bool := '0' ≤ c ∧ c ≤ '9'

/-- Split off the longest run of leading ASCII digits. -/
def takeDigits : List Char → (List Char × List Char)
  | [] => ([], [])
  | c :: cs =>
    if isDigitCh c then
      let p := takeDigits cs
      (c :: p.1, p.2)
    else ([], c :: cs)

/-- Lex one JSON number token per the grammar Go's scanner accepts:
`-? (0 | [1-9][0-9]*) (. [0-9]+)? ([eE] [+-]? [0-9]+)?`. -/
def lexNumber (cs0 : List Char) : Option (List Char × List Char) :=
  let p0 := match cs0 with
    | '-' :: t => ((['-'] : List Char), t)
    | _ => (([] : List Char), cs0)
  match p0.2 with
  | [] => none
  | c :: _ =>
    if ¬ isDigitCh c then none
    else
      let p1 := takeDigits p0.2
      if c = '0' ∧ p1.1.length ≠ 1 then none
      else
        let p2 : Option (List Char × List Char) := match p1.2 with
          | '.' :: t =>
            let q := takeDigits t
            if q.1 = [] then none else some ('.' :: q.1, q.2)
          | _ => some ([], p1.2)
        match p2 with
        | none => none
        | some (fp, cs3) =>
          let p3 : Option (List Char × List Char) := match cs3 with
            | e :: t =>
              if e = 'e' ∨ e = 'E' then
                let p4 := match t with
                  | s :: t2 => if s = '+' ∨ s = '-' then (([s] : List Char), t2) else (([] : List Char), t)
                  | [] => (([] : List Char), t)
                let q := takeDigits p4.2
                if q.1 = [] then none else some (e :: (p4.1 ++ q.1), q.2)
              else some ([], cs3)
            | [] => some ([], cs3)
          match p3 with
          | none => none
          | some (ep, cs4) => some (p0.1 ++ p1.1 ++ fp ++ ep, cs4)

/-- Parsing mode of `parseCore`: one value, the members of an object, or the
elements of an array. -/
inductive PMode where
  | pv
  | pf
  | pe

/-- Result of `parseCore`, tagged by mode. -/
inductive PRes where
  | rv (j : Json)
  | rf (l : List (String × Json))
  | re (l : List Json)

/-- Recursive-descent JSON parser.  The fuel only bounds the recursion
depth of the descent; `parseJson` passes `2 * length + 9`, which exceeds the
depth reachable on any input (each two fuel units consume at least one input
character). -/
def parseCore : Nat → PMode → List Char → Option (PRes × List Char)
  | 0, _, _ => none
  | fuel + 1, PMode.pv, cs =>
    match skipWs cs with
    | [] => none
    | c :: rest =>
      if c = '\x7b' then
        match skipWs rest with
        | [] => none
        | c2 :: rest2 =>
          if c2 = '\x7d' then some (PRes.rv (Json.obj []), rest2)
          else
            match parseCore fuel PMode.pf (c2 :: rest2) with
            | some (PRes.rf l, rest3) => some (PRes.rv (Json.obj l), rest3)
            | _ => none
      else if c = '[' then
        match skipWs rest with
        | [] => none
        | c2 :: rest2 =>
          if c2 = ']' then some (PRes.rv (Json.arr []), rest2)
          else
            match parseCore fuel PMode.pe (c2 :: rest2) with
            | some (PRes.re l, rest3) => some (PRes.rv (Json.arr l), rest3)
            | _ => none
      else if c = '\"' then
        match lexStr rest with
        | some p => some (PRes.rv (Json.str (String.mk p.1)), p.2)
        | none => none
      else if c = 't' then
        match rest with
        | c1 :: c2 :: c3 :: rest2 =>
          if c1 = 'r' ∧ c2 = 'u' ∧ c3 = 'e' then some (PRes.rv (Json.bool true), rest2)
          else none
        | _ => none
      else if c = 'f' then
        match rest with
        | c1 :: c2 :: c3 :: c4 :: rest2 =>
          if c1 = 'a' ∧ c2 = 'l' ∧ c3 = 's' ∧ c4 = 'e' then
            some (PRes.rv (Json.bool false), rest2)
          else none
        | _ => none
      else if c = 'n' then
        match rest with
        | c1 :: c2 :: c3 :: rest2 =>
          if c1 = 'u' ∧ c2 = 'l' ∧ c3 = 'l' then some (PRes.rv Json.null, rest2)
          else none
        | _ => none
      else
        match lexNumber (c :: rest) with
        | some p => some (PRes.rv (Json.num (String.mk p.1)), p.2)
        | none => none
  | fuel + 1, PMode.pf, cs =>
    match skipWs cs with
    | [] => none
    | c :: rest =>
      if c = '\"' then
        match lexStr rest with
        | none => none
        | some kp =>
          match skipWs kp.2 with
          | [] => none
          | c2 :: rest3 =>
            if c2 = ':' then
              match parseCore fuel PMode.pv rest3 with
              | some (PRes.rv v, rest4) =>
                (match skipWs rest4 with
                 | [] => none
                 | c3 :: rest5 =>
                   if c3 = ',' then
                     match parseCore fuel PMode.pf rest5 with
                     | some (PRes.rf l, rest6) =>
                       some (PRes.rf ((String.mk kp.1, v) :: l), rest6)
                     | _ => none
                   else if c3 = '\x7d' then some (PRes.rf [(String.mk kp.1, v)], rest5)
                   else none)
              | _ => none
            else none
      else none
  | fuel + 1, PMode.pe, cs =>
    match parseCore fuel PMode.pv cs with
    | some (PRes.rv v, rest) =>
      (match skipWs rest with
       | [] => none
       | c :: rest2 =>
         if c = ',' then
           match parseCore fuel PMode.pe rest2 with
           | some (PRes.re l, rest3) => some (PRes.re (v :: l), rest3)
           | _ => none
         else if c = ']' then some (PRes.re [v], rest2)
         else none)
    | _ => none

/-- Parse one JSON value, returning it with the unconsumed rest. -/
def parseValue (fuel : Nat) (cs : List Char) : Option (Json × List Char) :=
  match parseCore fuel PMode.pv cs with
  | some (PRes.rv v, rest) => some (v, rest)
  | _ => none

/-- Parse a whole string as one JSON value, as `json.Unmarshal` does:
trailing whitespace is allowed, any other trailing input is an error. -/
def parseJson (s : String) : Option Json :=
  match parseValue (2 * s.data.length + 9) s.data with
  | some (v, rest) => if skipWs rest = [] then some v else none
  | none => none

/-- Is the parse successful (used only to sanity-check the parser on
concrete inputs while the decoders are developed below). -/
def parseOk (s : String) : Bool := (parseJson s).isSome

example : parseOk "\x7b\"a\":[true,null]\x7d" = true := by decide

example : parseOk "\x7bnot json\x7d" = false := by decide

/-- ASCII lower-casing of one character, the folding under which
`encoding/json` matches object keys to struct field names. -/
def lowerCh (c : Char) : Char :=
  if 'A' ≤ c ∧ c ≤ 'Z' then Char.ofNat (c.toNat + 32) else c

/-- Key equality used by the struct decoder: Go prefers an exact match but
also accepts a case-insensitive one; with a single candidate field per key
this collapses to fold-equality.  (Go folds with `EqualFold`; the field
names of this program are ASCII, where the two agree.) -/
def keyFold (a b : List Char) : Bool := a.map lowerCh = b.map lowerCh

/-- Look up a field of a decoded JSON object as Go's struct decoder does:
keys are matched case-insensitively and a later duplicate overwrites an
earlier one, so the last matching member wins.  (For duplicate keys holding
nested objects Go merges them member-wise instead; no provider payload of
interest has duplicate keys.) -/
def getFieldCI (fs : List (String × Json)) (k : String) : Option Json :=
  match fs with
  | [] => none
  | (k2, v) :: rest =>
    match getFieldCI rest k with
    | some v2 => some v2
    | none => if keyFold k2.data k.data then some v else none

/-- Decode a `string` struct field: an absent or `null` member leaves the
zero value, a JSON string is taken verbatim, anything else is a type
mismatch and fails the whole `Unmarshal`. -/
def decodeStr : Option Json → Option String
  | none => some ""
  | some Json.null => some ""
  | some (Json.str s) => some s
  | some _ => none

/-- Decode a `bool` struct field (zero value `false`). -/
def decodeBool : Option Json → Option Bool
  | none => some false
  | some Json.null => some false
  | some (Json.bool b) => some b
  | some _ => none

/-- All-or-nothing element-wise decoding of a list.  (On a type mismatch Go
partially fills the target and returns an error; every caller in the program
treats the error as fatal and ignores the partial value, so the two are
observationally equal.) -/
def mapOption (f : α → Option β) : List α → Option (List β)
  | [] => some []
  | x :: xs =>
    match f x with
    | none => none
    | some y => (mapOption f xs).map (y :: ·)

/-- Decode a slice struct field: absent or `null` gives the empty slice. -/
def decodeList (f : Json → Option α) : Option Json → Option (List α)
  | none => some []
  | some Json.null => some []
  | some (Json.arr xs) => mapOption f xs
  | some _ => none

/-- One element of `OpenRouterResponse.Choices`: the inner anonymous struct
with `delta.content`, `message.content` and `finish_reason`. -/
structure ORChoice where
  deltaContent : String
  messageContent : String
  finishReason : String
deriving DecidableEq

/-- The `Error` payload of `OpenRouterResponse`: `message` and `type`
(named `etype` here since `type` is reserved). -/
structure ORErrorInfo where
  message : String
  etype : String
deriving DecidableEq

/-- Model of the Go struct `OpenRouterResponse`.  `error` is a pointer in
the source (`nil` when the member is absent or `null`). -/
structure OpenRouterResponse where
  choices : List ORChoice
  error : Option ORErrorInfo
deriving DecidableEq

/-- Model of the Go struct `OllamaResponse`: `message.role`,
`message.content`, `done`, `error`. -/
structure OllamaResponse where
  messageRole : String
  messageContent : String
  done : Bool
  error : String
deriving DecidableEq

/-- Decode the `delta` / `message` sub-objects of a choice, keeping their
`content` member. -/
def decodeContentObj : Option Json → Option String
  | none => some ""
  | some Json.null => some ""
  | some (Json.obj fs) => decodeStr (getFieldCI fs "content")
  | some _ => none

/-- Decode one element of the `choices` array. -/
def decodeORChoice : Json → Option ORChoice
  | Json.null => some ⟨"", "", ""⟩
  | Json.obj fs => do
    let d ← decodeContentObj (getFieldCI fs "delta")
    let m ← decodeContentObj (getFieldCI fs "message")
    let fr ← decodeStr (getFieldCI fs "finish_reason")
    pure ⟨d, m, fr⟩
  | _ => none

/-- Decode the `error` member into the pointer field (`none` = nil). -/
def decodeORError : Option Json → Option (Option ORErrorInfo)
  | none => some none
  | some Json.null => some none
  | some (Json.obj fs) => do
    let m ← decodeStr (getFieldCI fs "message")
    let t ← decodeStr (getFieldCI fs "type")
    pure (some ⟨m, t⟩)
  | some _ => none

/-- Decode a JSON value into `OpenRouterResponse` (a top-level `null` is a
no-op in Go and leaves the zero value). -/
def decodeOpenRouterResponse : Json → Option OpenRouterResponse
  | Json.null => some ⟨[], none⟩
  | Json.obj fs => do
    let cs ← decodeList decodeORChoice (getFieldCI fs "choices")
    let e ← decodeORError (getFieldCI fs "error")
    pure ⟨cs, e⟩
  | _ => none

/-- Decode the `message` sub-object of `OllamaResponse`. -/
def decodeOllamaMsg : Option Json → Option (String × String)
  | none => some ("", "")
  | some Json.null => some ("", "")
  | some (Json.obj fs) => do
    let r ← decodeStr (getFieldCI fs "role")
    let c ← decodeStr (getFieldCI fs "content")
    pure (r, c)
  | some _ => none

/-- Decode a JSON value into `OllamaResponse`. -/
def decodeOllamaResponse : Json → Option OllamaResponse
  | Json.null => some ⟨"", "", false, ""⟩
  | Json.obj fs => do
    let rc ← decodeOllamaMsg (getFieldCI fs "message")
    let d ← decodeBool (getFieldCI fs "done")
    let e ← decodeStr (getFieldCI fs "error")
    pure ⟨rc.1, rc.2, d, e⟩
  | _ => none

/-- The model of `json.Unmarshal(body, &openRouterResp)`: `none` exactly
when Go reports a non-nil error. -/
def unmarshalOpenRouter (s : String) : Option OpenRouterResponse :=
  (parseJson s).bind decodeOpenRouterResponse

/-- The model of `json.Unmarshal(body, &ollamaResp)`. -/
def unmarshalOllama (s : String) : Option OllamaResponse :=
  (parseJson s).bind decodeOllamaResponse

example : unmarshalOpenRouter "\x7b\"choices\":[\x7b\"message\":\x7b\"content\":\"hi\"\x7d\x7d]\x7d" =
    some ⟨[⟨"", "hi", ""⟩], none⟩ := by decide

example : unmarshalOllama "\x7b\"message\":\x7b\"content\":\"Hi\"\x7d,\"done\":false\x7d" =
    some ⟨"", "Hi", false, ""⟩ := by decide

/-- The three providers.  The spec calls them CloudAggregator
(`openrouter`), LocalServerA (`ollama`) and LocalServerB (`lmstudio`). -/
inductive Provider where
  | openrouter
  | ollama
  | lmstudio
deriving DecidableEq

/-- The distinct failure values the response interpreter can produce, one
constructor per `fmt.Errorf` site of the parsing code.  `apiError` carries
the HTTP status when raised on a non-200 response ("HTTP %d - API error
(%s): %s") and `none` for an in-band error on a 200 response ("API error
(%s): %s"); likewise `ollamaApiError`. -/
inductive RespError where
  | apiError (httpStatus : Option Nat) (etype : String) (message : String)
  | ollamaApiError (httpStatus : Option Nat) (message : String)
  | httpError (status : Nat) (body : String)
  | malformedResponse
  | emptyResponse
deriving DecidableEq

deriving instance DecidableEq for Except

/-- The non-streaming response interpretation of `sendRequest` (the spec's
`parseComplete(provider, rawBody, httpStatus)`), covering main.go lines
712-775: the non-200 error-envelope attempt, then the provider success
envelope with its in-band error, empty-choices and content cases. -/
def parseComplete (p : Provider) (rawBody : String) (httpStatus : Nat) :
    Except RespError String :=
  if httpStatus ≠ 200 then
    if p = Provider.ollama then
      match unmarshalOllama rawBody with
      | some r =>
        if r.error ≠ "" then Except.error (RespError.ollamaApiError (some httpStatus) r.error)
        else Except.error (RespError.httpError httpStatus rawBody)
      | none => Except.error (RespError.httpError httpStatus rawBody)
    else
      match unmarshalOpenRouter rawBody with
      | some r =>
        match r.error with
        | some e => Except.error (RespError.apiError (some httpStatus) e.etype e.message)
        | none => Except.error (RespError.httpError httpStatus rawBody)
      | none => Except.error (RespError.httpError httpStatus rawBody)
  else
    if p = Provider.ollama then
      match unmarshalOllama rawBody with
      | none => Except.error RespError.malformedResponse
      | some r =>
        if r.error ≠ "" then Except.error (RespError.ollamaApiError none r.error)
        else Except.ok r.messageContent
    else
      match unmarshalOpenRouter rawBody with
      | none => Except.error RespError.malformedResponse
      | some r =>
        match r.error with
        | some e => Except.error (RespError.apiError none e.etype e.message)
        | none =>
          match r.choices with
          | [] => Except.error RespError.emptyResponse
          | choice :: _ => Except.ok choice.messageContent

example : parseComplete Provider.openrouter
    "\x7b\"choices\":[\x7b\"message\":\x7b\"content\":\"hi\"\x7d\x7d]\x7d" 200 =
    Except.ok "hi" := by decide

/-- In-band streaming failures, one constructor per `fmt.Errorf` site of
the streaming loops ("API error in stream (%s): %s" and "Ollama error in
stream: %s"). -/
inductive StreamErr where
  | apiStreamError (etype : String) (message : String)
  | ollamaStreamError (message : String)
deriving DecidableEq

/-- Terminal state of one streaming invocation. -/
inductive StreamOutcome where
  | done
  | aborted (e : StreamErr)
deriving DecidableEq

/-- Observable result of a streaming invocation: the chunks printed in
order, and how the loop ended. -/
structure StreamResult where
  chunks : List String
  outcome : StreamOutcome
deriving DecidableEq

/-- Does `s` start with `p`, as `strings.HasPrefix` (an ASCII byte-level
test in Go coincides with this character-level one on valid UTF-8). -/
def strStartsWith (s p : String) : Bool := List.isPrefixOf p.data s.data

/-- Remove a leading `p` from `s` if present, as `strings.TrimPrefix`. -/
def strTrimStart (s p : String) : String :=
  if strStartsWith s p then String.mk (s.data.drop p.data.length) else s

/-- The SSE scan loop of `sendStreamingRequest` (main.go lines 929-999),
used for the `openrouter` and `lmstudio` providers, run over the sequence of
scanner lines.  The end of the list is a clean EOF of the response body
(`scanner.Err() == nil`). -/
def sseLoop : List String → StreamResult
  | [] => ⟨[], StreamOutcome.done⟩
  | line :: rest =>
    if line = "" ∨ ¬ strStartsWith line "data: " then sseLoop rest
    else
      let payload := strTrimStart line "data: "
      if payload = "[DONE]" then ⟨[], StreamOutcome.done⟩
      else
        match unmarshalOpenRouter payload with
        | none => sseLoop rest
        | some chunk =>
          match chunk.error with
          | some e => ⟨[], StreamOutcome.aborted (StreamErr.apiStreamError e.etype e.message)⟩
          | none =>
            match chunk.choices with
            | [] => sseLoop rest
            | choice :: _ =>
              let content :=
                if choice.deltaContent ≠ "" then choice.deltaContent
                else if choice.messageContent ≠ "" then choice.messageContent
                else ""
              let emitted := if content ≠ "" then [content] else []
              if choice.finishReason ≠ "" then ⟨emitted, StreamOutcome.done⟩
              else
                let r := sseLoop rest
                ⟨emitted ++ r.chunks, r.outcome⟩

/-- The newline-delimited-JSON scan loop of `sendStreamingRequest`
(main.go lines 874-927), used for the `ollama` provider. -/
def ollamaLoop : List String → StreamResult
  | [] => ⟨[], StreamOutcome.done⟩
  | line :: rest =>
    if line = "" then ollamaLoop rest
    else
      match unmarshalOllama line with
      | none => ollamaLoop rest
      | some chunk =>
        if chunk.error ≠ "" then
          ⟨[], StreamOutcome.aborted (StreamErr.ollamaStreamError chunk.error)⟩
        else
          let emitted := if chunk.messageContent ≠ "" then [chunk.messageContent] else []
          if chunk.done then ⟨emitted, StreamOutcome.done⟩
          else
            let r := ollamaLoop rest
            ⟨emitted ++ r.chunks, r.outcome⟩

/-- The provider dispatch of the streaming interpreter (the spec's
`parseStream`). -/
def parseStream (p : Provider) (lines : List String) : StreamResult :=
  if p = Provider.ollama then ollamaLoop lines else sseLoop lines

/-- The chunk (zero or one) that one SSE line emits when the loop neither
aborts nor breaks on it. -/
def sseEmitted (line : String) : List String :=
  if line = "" ∨ ¬ strStartsWith line "data: " then []
  else
    let payload := strTrimStart line "data: "
    if payload = "[DONE]" then []
    else
      match unmarshalOpenRouter payload with
      | none => []
      | some chunk =>
        match chunk.error with
        | some _ => []
        | none =>
          match chunk.choices with
          | [] => []
          | choice :: _ =>
            let content :=
              if choice.deltaContent ≠ "" then choice.deltaContent
              else if choice.messageContent ≠ "" then choice.messageContent
              else ""
            if content ≠ "" then [content] else []

/-- The chunk (zero or one) that one local-native line emits when the loop
neither aborts nor breaks on it. -/
def ollamaEmitted (line : String) : List String :=
  if line = "" then []
  else
    match unmarshalOllama line with
    | none => []
    | some chunk =>
      if chunk.error ≠ "" then []
      else if chunk.messageContent ≠ "" then [chunk.messageContent]
      else []

/-- Is the SSE line free of every termination signal: it is ignored, or its
payload is not `[DONE]`, decodes to no in-band error, and carries no
non-empty `finish_reason`. -/
def sseNonTerminal (line : String) : Bool :=
  if line = "" ∨ ¬ strStartsWith line "data: " then true
  else
    let payload := strTrimStart line "data: "
    if payload = "[DONE]" then false
    else
      match unmarshalOpenRouter payload with
      | none => true
      | some chunk =>
        match chunk.error with
        | some _ => false
        | none =>
          match chunk.choices with
          | [] => true
          | choice :: _ => choice.finishReason = ""

/-- Is the local-native line free of every termination signal. -/
def ollamaNonTerminal (line : String) : Bool :=
  if line = "" then true
  else
    match unmarshalOllama line with
    | none => true
    | some chunk => chunk.error = "" ∧ chunk.done = false

/-- Per-provider emission of one non-terminating line. -/
def lineEmitted (p : Provider) (line : String) : List String :=
  if p = Provider.ollama then ollamaEmitted line else sseEmitted line

/-- Per-provider absence of a termination signal on one line. -/
def lineNonTerminal (p : Provider) (line : String) : Bool :=
  if p = Provider.ollama then ollamaNonTerminal line else sseNonTerminal line

example : sseLoop
    ["data: \x7b\"choices\":[\x7b\"delta\":\x7b\"content\":\"He\"\x7d\x7d]\x7d",
     "data: \x7b\"choices\":[\x7b\"delta\":\x7b\"content\":\"llo\"\x7d\x7d]\x7d",
     "data: [DONE]"] = ⟨["He", "llo"], StreamOutcome.done⟩ := by decide

example : ollamaLoop
    ["\x7b\"message\":\x7b\"content\":\"Hi\"\x7d,\"done\":false\x7d",
     "\x7b\"message\":\x7b\"content\":\"\"\x7d,\"done\":true\x7d"] =
    ⟨["Hi"], StreamOutcome.done⟩ := by decide

/-- Whitespace trimmed by `strings.TrimSpace` (`unicode.IsSpace`): the
Latin-1 cases; the higher Unicode space category is omitted, no input of
interest contains such characters. -/
def goIsSpace (c : Char) : Bool :=
  c = ' ' ∨ c = '\t' ∨ c = '\n' ∨ c.toNat = 11 ∨ c.toNat = 12 ∨ c = '\r' ∨
    c.toNat = 133 ∨ c.toNat = 160

/-- `strings.TrimSpace`: drop whitespace from both ends. -/
def goTrimSpace (s : String) : String :=
  String.mk (((s.data.dropWhile goIsSpace).reverse.dropWhile goIsSpace).reverse)

/-- Failure of the input-preparing step. -/
inductive BuildError where
  | emptyInput
deriving DecidableEq

/-- `prepareInput` (main.go lines 586-610): trim the stdin data, fail if the
result is empty, else prepend the pre-prompt (when non-empty) separated by a
blank line. -/
def prepareInput (stdinData prePrompt : String) : Except BuildError String :=
  let input := goTrimSpace stdinData
  if input = "" then Except.error BuildError.emptyInput
  else if prePrompt ≠ "" then Except.ok (prePrompt ++ "\n\n" ++ input)
  else Except.ok input

/-- The Go struct `ChatMessage`. -/
structure ChatMessage where
  role : String
  content : String
deriving DecidableEq

/-- The Go struct `OpenRouterRequest` (`model`, `messages`,
`stream,omitempty`). -/
structure OpenRouterRequest where
  model : String
  messages : List ChatMessage
  stream : Bool
deriving DecidableEq

/-- The request body value handed to `json.Marshal`: either the typed
struct `OpenRouterRequest`, or the `map[string]interface` literal with keys
`model`, `messages`, `stream` that `sendRequest` / `sendStreamingRequest`
build for the `ollama` provider. -/
inductive ReqBody where
  | typed (r : OpenRouterRequest)
  | untyped (model : String) (messages : List ChatMessage) (stream : Bool)
deriving DecidableEq

/-- Is the body the loosely-typed map variant. -/
def ReqBody.isUntyped : ReqBody → Bool
  | ReqBody.typed _ => false
  | ReqBody.untyped _ _ _ => true

/-- The request-body construction of `sendRequest` (main.go lines 629-652)
and `sendStreamingRequest` (lines 782-805): the untyped map for `ollama`,
the typed struct for everyone else, always one user message. -/
def buildReqBody (p : Provider) (modelName input : String) (stream : Bool) : ReqBody :=
  if p = Provider.ollama then ReqBody.untyped modelName [⟨"user", input⟩] stream
  else ReqBody.typed ⟨modelName, [⟨"user", input⟩], stream⟩

/-- The spec's Request Builder: the validation performed by `prepareInput`
(with no pre-prompt, which is excluded CLI glue) followed by the body
construction of `sendRequest` / `sendStreamingRequest`. -/
def buildRequest (p : Provider) (modelName promptText : String) (stream : Bool) :
    Except BuildError ReqBody :=
  (prepareInput promptText "").map (fun input => buildReqBody p modelName input stream)

/-- Lower-case hexadecimal digit, as Go's JSON encoder emits. -/
def hexDigit (n : Nat) : Char :=
  if n < 10 then Char.ofNat (48 + n) else Char.ofNat (87 + n)

/-- Escape one character of a JSON string as Go's `encoding/json` encoder
(with its default HTML escaping) does: quote and backslash get a backslash,
newline/carriage-return/tab their short forms, other control characters and
the HTML-significant three a `\u00XX` form, U+2028/U+2029 a `\u202X` form,
and everything else is written verbatim. -/
def escapeChar (c : Char) : List Char :=
  if c = '\"' then ['\\', '\"']
  else if c = '\\' then ['\\', '\\']
  else if c = '\n' then ['\\', 'n']
  else if c = '\r' then ['\\', 'r']
  else if c = '\t' then ['\\', 't']
  else if c.toNat < 32 ∨ c = '<' ∨ c = '>' ∨ c = '&' then
    ['\\', 'u', '0', '0', hexDigit (c.toNat / 16), hexDigit (c.toNat % 16)]
  else if c.toNat = 8232 ∨ c.toNat = 8233 then
    ['\\', 'u', '2', '0', '2', hexDigit (c.toNat % 16)]
  else [c]

/-- Serialize a string literal as Go's encoder does. -/
def marshalStringChars (s : String) : List Char :=
  '\"' :: (s.data.flatMap escapeChar ++ ['\"'])

/-- Serialize one `ChatMessage` (struct field order: `role`, `content`),
producing the characters of `\x7b"role":<role>,"content":<content>\x7d`. -/
def marshalMsgChars (m : ChatMessage) : List Char :=
  '\x7b' :: '\"' :: 'r' :: 'o' :: 'l' :: 'e' :: '\"' :: ':' ::
    (marshalStringChars m.role ++
      (',' :: '\"' :: 'c' :: 'o' :: 'n' :: 't' :: 'e' :: 'n' :: 't' :: '\"' :: ':' ::
        (marshalStringChars m.content ++ ['\x7d'])))

/-- Serialize a `[]ChatMessage` as a comma-separated JSON array. -/
def marshalMessagesChars (ms : List ChatMessage) : List Char :=
  '[' :: (List.intercalate [','] (ms.map marshalMsgChars) ++ [']'])

/-- Serialize a request body as `json.Marshal` does.  The typed struct is
written in field order (`"model":…`, `"messages":…`, `"stream":true`) with
`stream` omitted when false (`omitempty`); the untyped map is written with
its keys sorted lexicographically (`"messages"`, `"model"`, `"stream"`) and
`stream` always present, as Go serializes maps. -/
def marshalReqBodyChars : ReqBody → List Char
  | ReqBody.typed r =>
    '\x7b' :: '\"' :: 'm' :: 'o' :: 'd' :: 'e' :: 'l' :: '\"' :: ':' ::
      (marshalStringChars r.model ++
        (',' :: '\"' :: 'm' :: 'e' :: 's' :: 's' :: 'a' :: 'g' :: 'e' :: 's' :: '\"' :: ':' ::
          (marshalMessagesChars r.messages ++
            ((if r.stream then
                [',', '\"', 's', 't', 'r', 'e', 'a', 'm', '\"', ':', 't', 'r', 'u', 'e']
              else []) ++ ['\x7d']))))
  | ReqBody.untyped model ms stream =>
    '\x7b' :: '\"' :: 'm' :: 'e' :: 's' :: 's' :: 'a' :: 'g' :: 'e' :: 's' :: '\"' :: ':' ::
      (marshalMessagesChars ms ++
        (',' :: '\"' :: 'm' :: 'o' :: 'd' :: 'e' :: 'l' :: '\"' :: ':' ::
          (marshalStringChars model ++
            (',' :: '\"' :: 's' :: 't' :: 'r' :: 'e' :: 'a' :: 'm' :: '\"' :: ':' ::
              ((if stream then ['t', 'r', 'u', 'e'] else ['f', 'a', 'l', 's', 'e']) ++
                ['\x7d'])))))

/-- The serialized request body (`jsonData` in the source). -/
def marshalReqBody (b : ReqBody) : String := String.mk (marshalReqBodyChars b)

/-- Decode one element of a `messages` array back into `ChatMessage`. -/
def decodeChatMessage : Json → Option ChatMessage
  | Json.null => some ⟨"", ""⟩
  | Json.obj fs => do
    let r ← decodeStr (getFieldCI fs "role")
    let c ← decodeStr (getFieldCI fs "content")
    pure ⟨r, c⟩
  | _ => none

/-- Deserialize a request body and extract its `messages` list, as
`json.Unmarshal` into `OpenRouterRequest` followed by reading `Messages`
would. -/
def unmarshalMessages (s : String) : Option (List ChatMessage) :=
  match parseJson s with
  | some Json.null => some []
  | some (Json.obj fs) => decodeList decodeChatMessage (getFieldCI fs "messages")
  | _ => none

example : marshalReqBody (buildReqBody Provider.openrouter "m1" "hi" true) =
    "\x7b\"model\":\"m1\",\"messages\":[\x7b\"role\":\"user\",\"content\":\"hi\"\x7d],\"stream\":true\x7d" := by
  decide

example : marshalReqBody (buildReqBody Provider.ollama "llama2" "hi" false) =
    "\x7b\"messages\":[\x7b\"role\":\"user\",\"content\":\"hi\"\x7d],\"model\":\"llama2\",\"stream\":false\x7d" := by
  decide

example : unmarshalMessages (marshalReqBody (buildReqBody Provider.ollama "llama2" "hi" true)) =
    some [⟨"user", "hi"⟩] := by decide

/-! ### Helper lemmas -/

/-- A string does start with itself followed by anything. -/
theorem strStartsWith_append (p s : String) : strStartsWith (p ++ s) p = true := by
  simp [strStartsWith, String.data_append, List.isPrefixOf_iff_prefix]

/-- Trimming a leading prefix off an appended string recovers the tail. -/
theorem strTrimStart_append (p s : String) : strTrimStart (p ++ s) p = s := by
  simp [strTrimStart, strStartsWith_append, String.data_append]

/-- A string with a non-empty head appended on the left is non-empty. -/
theorem sse_line_ne_empty (s : String) : ("data: " ++ s) ≠ "" := by
  intro h
  have : ("data: " ++ s).data = ("" : String).data := by rw [h]
  simp [String.data_append] at this

/-- A line that starts with the SSE marker is non-empty. -/
theorem ne_empty_of_startsWith (line : String)
    (h : strStartsWith line "data: " = true) : line ≠ "" := by
  intro he
  rw [he] at h
  exact absurd h (by decide)

/-! ### C7: the builder validates emptiness and nothing else -/

/-- C7: for every provider, the request-building operation fails with
`EmptyInputError` on an empty prompt string (indeed on any prompt that trims
to empty), and this emptiness check is its only validation: on every prompt
with non-empty trimmed text it succeeds, producing the body for the trimmed
text. -/
theorem claim7 :
    (∀ (p : Provider) (m : String) (st : Bool),
      buildRequest p m "" st = Except.error BuildError.emptyInput) ∧
    (∀ (p : Provider) (m prompt : String) (st : Bool),
      goTrimSpace prompt = "" →
        buildRequest p m prompt st = Except.error BuildError.emptyInput) ∧
    (∀ (p : Provider) (m prompt : String) (st : Bool),
      goTrimSpace prompt ≠ "" →
        buildRequest p m prompt st =
          Except.ok (buildReqBody p m (goTrimSpace prompt) st)) := by
  refine ⟨?_, ?_, ?_⟩
  · intro p m st
    simp [buildRequest, prepareInput, goTrimSpace, Except.map]
  · intro p m prompt st h
    simp [buildRequest, prepareInput, h, Except.map]
  · intro p m prompt st h
    simp [buildRequest, prepareInput, h, Except.map]

/-- Witness for C7 at concrete inputs. -/
theorem claim7_witness :
    buildRequest Provider.lmstudio "local-model" " hello " false =
      Except.ok (buildReqBody Provider.lmstudio "local-model" "hello" false) ∧
    buildRequest Provider.openrouter "m" "   " true =
      Except.error BuildError.emptyInput := by
  constructor
  · have h := claim7.2.2 Provider.lmstudio "local-model" " hello " false (by decide)
    have ht : goTrimSpace " hello " = "hello" := by decide
    rw [ht] at h
    exact h
  · exact claim7.2.1 Provider.openrouter "m" "   " true (by decide)

/-! ### C8: which provider gets the untyped map -/

/-- C8 counterexample: building for LocalServerB (`lmstudio`) yields the
typed `OpenRouterRequest` structure, not the untyped map — its serialized
form is the struct layout (field order `model`, `messages`, `stream`
omitted when false), refuting the claim that LocalServerB serializes under
the untyped map. -/
theorem claim8_counterexample :
    (buildReqBody Provider.lmstudio "local-model" "hi" false).isUntyped = false ∧
    marshalReqBody (buildReqBody Provider.lmstudio "local-model" "hi" false) =
      "\x7b\"model\":\"local-model\",\"messages\":[\x7b\"role\":\"user\",\"content\":\"hi\"\x7d]\x7d" := by
  decide

/-- C8 amended: the looser untyped map (serialized with sorted keys and an
always-present `stream`) is used for LocalServerA (`ollama`); LocalServerB
(`lmstudio`), like CloudAggregator, is serialized from the typed
`OpenRouterRequest` structure of identical shape. -/
theorem claim8 (m input : String) (st : Bool) :
    buildReqBody Provider.ollama m input st =
      ReqBody.untyped m [⟨"user", input⟩] st ∧
    (buildReqBody Provider.ollama m input st).isUntyped = true ∧
    (buildReqBody Provider.lmstudio m input st).isUntyped = false ∧
    (buildReqBody Provider.openrouter m input st).isUntyped = false ∧
    buildReqBody Provider.lmstudio m input st =
      ReqBody.typed ⟨m, [⟨"user", input⟩], st⟩ := by
  refine ⟨rfl, rfl, rfl, rfl, rfl⟩

/-! ### C10: LocalServerA success path cannot fail at 200 -/

/-- C10: for the `ollama` provider, a 200-status body whose envelope
decodes with an empty `error` field always succeeds with
`message.content`, even when that content is empty — no
`EmptyResponseError` or other failure exists on this path. -/
theorem claim10 :
    (∀ (body : String) (r : OllamaResponse),
      unmarshalOllama body = some r → r.error = "" →
        parseComplete Provider.ollama body 200 = Except.ok r.messageContent) ∧
    parseComplete Provider.ollama
      "\x7b\"message\":\x7b\"content\":\"\"\x7d,\"done\":true\x7d" 200 =
      Except.ok "" := by
  constructor
  · intro body r hr he
    simp [parseComplete, hr, he]
  · decide

/-- Witness for C10: the general part applied at a concrete body whose
content is empty. -/
theorem claim10_witness :
    parseComplete Provider.ollama "\x7b\"message\":\x7b\"content\":\"ok\"\x7d\x7d" 200 =
      Except.ok "ok" :=
  claim10.1 "\x7b\"message\":\x7b\"content\":\"ok\"\x7d\x7d" ⟨"", "ok", false, ""⟩
    (by decide) rfl

/-! ### C1: 200-status envelope handling for the OpenAI-compatible providers -/

/-- C1: for the `openrouter` and `lmstudio` providers, non-streaming parsing
of a 200-status body whose envelope decodes fails with `APIError` whenever
the `error` field is present (despite the 200 status), fails with
`EmptyResponseError` when `error` is absent and `choices` is empty, and
otherwise returns `choices[0].message.content`; in particular the body
`choices: [message: content "hi"]` yields `"hi"`. -/
theorem claim1 :
    (∀ (p : Provider) (body : String) (r : OpenRouterResponse),
      (p = Provider.openrouter ∨ p = Provider.lmstudio) →
      unmarshalOpenRouter body = some r →
        (∀ e, r.error = some e →
          parseComplete p body 200 =
            Except.error (RespError.apiError none e.etype e.message)) ∧
        (r.error = none → r.choices = [] →
          parseComplete p body 200 = Except.error RespError.emptyResponse) ∧
        (∀ choice tl, r.error = none → r.choices = choice :: tl →
          parseComplete p body 200 = Except.ok choice.messageContent)) ∧
    parseComplete Provider.openrouter
      "\x7b\"choices\":[\x7b\"message\":\x7b\"content\":\"hi\"\x7d\x7d]\x7d" 200 =
      Except.ok "hi" ∧
    parseComplete Provider.openrouter "\x7b\"choices\":[]\x7d" 200 =
      Except.error RespError.emptyResponse := by
  refine ⟨?_, by decide, by decide⟩
  intro p body r hp hr
  have hne : p ≠ Provider.ollama := by
    rcases hp with h | h <;> subst h <;> decide
  refine ⟨?_, ?_, ?_⟩
  · intro e he
    simp [parseComplete, hne, hr, he]
  · intro he hc
    simp [parseComplete, hne, hr, he, hc]
  · intro choice tl he hc
    simp [parseComplete, hne, hr, he, hc]

/-- Witness for C1: the general part applied at a concrete error-despite-200
body for `lmstudio`. -/
theorem claim1_witness :
    parseComplete Provider.lmstudio
      "\x7b\"error\":\x7b\"message\":\"overloaded\",\"type\":\"server\"\x7d\x7d" 200 =
      Except.error (RespError.apiError none "server" "overloaded") :=
  (claim1.1 Provider.lmstudio
      "\x7b\"error\":\x7b\"message\":\"overloaded\",\"type\":\"server\"\x7d\x7d"
      ⟨[], some ⟨"overloaded", "server"⟩⟩ (Or.inr rfl) (by decide)).1
    ⟨"overloaded", "server"⟩ rfl

/-! ### C4: non-200 error-envelope handling -/

/-- C4 counterexample: at status 401 the `openrouter` error envelope
`error: (message "", type "auth")` decodes successfully with an EMPTY error
message, yet the code fails with `APIError` (carrying the empty message),
not with `HTTPError` as the claim's "otherwise" branch requires — the code
tests presence of the `error` object, not non-emptiness of its message. -/
theorem claim4_counterexample :
    parseComplete Provider.openrouter
      "\x7b\"error\":\x7b\"message\":\"\",\"type\":\"auth\"\x7d\x7d" 401 =
      Except.error (RespError.apiError (some 401) "auth" "") := by
  decide

/-- C4 amended: for a non-200 status each provider attempts to decode the
body as its own error envelope; for `openrouter` and `lmstudio` the
operation fails with `APIError` (status, provider error type, message) iff
the decode succeeds and the `error` object is present — even with an empty
message — and with `HTTPError` (status, raw body) otherwise; for `ollama`
it fails with its provider error iff the decode succeeds and the `error`
string is non-empty, and with `HTTPError` otherwise.  The bad-key 401
example holds for the two OpenAI-compatible providers (for `ollama` that
body fails to decode as its envelope, so it yields `HTTPError`). -/
theorem claim4 :
    (∀ (p : Provider) (body : String) (status : Nat) (r : OpenRouterResponse) e,
      p ≠ Provider.ollama → status ≠ 200 →
      unmarshalOpenRouter body = some r → r.error = some e →
        parseComplete p body status =
          Except.error (RespError.apiError (some status) e.etype e.message)) ∧
    (∀ (p : Provider) (body : String) (status : Nat) (r : OpenRouterResponse),
      p ≠ Provider.ollama → status ≠ 200 →
      unmarshalOpenRouter body = some r → r.error = none →
        parseComplete p body status =
          Except.error (RespError.httpError status body)) ∧
    (∀ (p : Provider) (body : String) (status : Nat),
      p ≠ Provider.ollama → status ≠ 200 →
      unmarshalOpenRouter body = none →
        parseComplete p body status =
          Except.error (RespError.httpError status body)) ∧
    (∀ (body : String) (status : Nat) (r : OllamaResponse),
      status ≠ 200 → unmarshalOllama body = some r → r.error ≠ "" →
        parseComplete Provider.ollama body status =
          Except.error (RespError.ollamaApiError (some status) r.error)) ∧
    (∀ (body : String) (status : Nat) (r : OllamaResponse),
      status ≠ 200 → unmarshalOllama body = some r → r.error = "" →
        parseComplete Provider.ollama body status =
          Except.error (RespError.httpError status body)) ∧
    (∀ (body : String) (status : Nat),
      status ≠ 200 → unmarshalOllama body = none →
        parseComplete Provider.ollama body status =
          Except.error (RespError.httpError status body)) ∧
    parseComplete Provider.openrouter
      "\x7b\"error\":\x7b\"message\":\"bad key\",\"type\":\"auth\"\x7d\x7d" 401 =
      Except.error (RespError.apiError (some 401) "auth" "bad key") ∧
    parseComplete Provider.lmstudio
      "\x7b\"error\":\x7b\"message\":\"bad key\",\"type\":\"auth\"\x7d\x7d" 401 =
      Except.error (RespError.apiError (some 401) "auth" "bad key") ∧
    parseComplete Provider.ollama
      "\x7b\"error\":\x7b\"message\":\"bad key\",\"type\":\"auth\"\x7d\x7d" 401 =
      Except.error (RespError.httpError 401
        "\x7b\"error\":\x7b\"message\":\"bad key\",\"type\":\"auth\"\x7d\x7d") := by
  refine ⟨?_, ?_, ?_, ?_, ?_, ?_, by decide, by decide, by decide⟩
  · intro p body status r e hp hs hr he
    simp [parseComplete, hp, hs, hr, he]
  · intro p body status r hp hs hr he
    simp [parseComplete, hp, hs, hr, he]
  · intro p body status hp hs hr
    simp [parseComplete, hp, hs, hr]
  · intro body status r hs hr he
    simp [parseComplete, hs, hr, he]
  · intro body status r hs hr he
    simp [parseComplete, hs, hr, he]
  · intro body status hs hr
    simp [parseComplete, hs, hr]

/-- Witness for C4 at concrete inputs. -/
theorem claim4_witness :
    parseComplete Provider.lmstudio "\x7bgarbage" 500 =
      Except.error (RespError.httpError 500 "\x7bgarbage") ∧
    parseComplete Provider.ollama "\x7b\"error\":\"no model\"\x7d" 404 =
      Except.error (RespError.ollamaApiError (some 404) "no model") := by
  constructor
  · exact claim4.2.2.1 Provider.lmstudio "\x7bgarbage" 500 (by decide) (by decide) (by decide)
  · exact claim4.2.2.2.1 "\x7b\"error\":\"no model\"\x7d" 404 ⟨"", "", false, "no model"⟩
      (by decide) (by decide) (by decide)

/-! ### C2: SSE streaming semantics -/

/-- C2: for the SSE-framed providers (`openrouter` and `lmstudio`,
dispatched to the same loop), a line not beginning with the literal
`data: ` is ignored; a `[DONE]` payload terminates the sequence
successfully with no further lines read; for a decoded frame with non-empty
choices, `delta.content` is preferred over `message.content` and emitted as
a chunk when non-empty, and a non-empty `finish_reason` terminates the
sequence successfully right after that chunk; and the two-delta-then-DONE
feed yields exactly `["He", "llo"]` then Done. -/
theorem claim2 :
    (∀ (p : Provider) (lines : List String), p ≠ Provider.ollama →
      parseStream p lines = sseLoop lines) ∧
    (∀ (line : String) (rest : List String),
      strStartsWith line "data: " = false →
        sseLoop (line :: rest) = sseLoop rest) ∧
    (∀ rest : List String,
      sseLoop ("data: [DONE]" :: rest) = ⟨[], StreamOutcome.done⟩) ∧
    (∀ (payload : String) (rest : List String) (chunk : OpenRouterResponse)
        (choice : ORChoice) (tl : List ORChoice),
      payload ≠ "[DONE]" →
      unmarshalOpenRouter payload = some chunk →
      chunk.error = none →
      chunk.choices = choice :: tl →
        sseLoop (("data: " ++ payload) :: rest) =
          (let content :=
            if choice.deltaContent ≠ "" then choice.deltaContent
            else if choice.messageContent ≠ "" then choice.messageContent
            else ""
          let emitted := if content ≠ "" then [content] else []
          if choice.finishReason ≠ "" then ⟨emitted, StreamOutcome.done⟩
          else ⟨emitted ++ (sseLoop rest).chunks, (sseLoop rest).outcome⟩)) ∧
    sseLoop
      ["data: \x7b\"choices\":[\x7b\"delta\":\x7b\"content\":\"He\"\x7d\x7d]\x7d",
       "data: \x7b\"choices\":[\x7b\"delta\":\x7b\"content\":\"llo\"\x7d\x7d]\x7d",
       "data: [DONE]"] = ⟨["He", "llo"], StreamOutcome.done⟩ := by
  refine ⟨?_, ?_, ?_, ?_, by decide⟩
  · intro p lines hp
    simp [parseStream, hp]
  · intro line rest h
    simp [sseLoop, h]
  · intro rest
    have h1 : strStartsWith "data: [DONE]" "data: " = true := by decide
    have h2 : strTrimStart "data: [DONE]" "data: " = "[DONE]" := by decide
    simp [sseLoop, h1, h2]
  · intro payload rest chunk choice tl hdone hdec herr hch
    have hpre := strStartsWith_append "data: " payload
    have hne := ne_empty_of_startsWith _ hpre
    have htrim := strTrimStart_append "data: " payload
    simp [sseLoop, hne, hpre, htrim, hdone, hdec, herr, hch]

/-- Witness for C2 at concrete inputs: a non-`data: ` line is ignored, and
a frame with a non-empty `finish_reason` ends the stream after its chunk. -/
theorem claim2_witness :
    parseStream Provider.lmstudio [": keep-alive"] = sseLoop [": keep-alive"] ∧
    sseLoop (": keep-alive" :: ["data: [DONE]"]) = sseLoop ["data: [DONE]"] ∧
    sseLoop [("data: " ++ "\x7b\"choices\":[\x7b\"delta\":\x7b\"content\":\"x\"\x7d,\"finish_reason\":\"stop\"\x7d]\x7d"), "data: never read"] =
      ⟨["x"], StreamOutcome.done⟩ := by
  refine ⟨claim2.1 Provider.lmstudio [": keep-alive"] (by decide),
          claim2.2.1 ": keep-alive" ["data: [DONE]"] (by decide), ?_⟩
  have h := claim2.2.2.2.1
    "\x7b\"choices\":[\x7b\"delta\":\x7b\"content\":\"x\"\x7d,\"finish_reason\":\"stop\"\x7d]\x7d"
    ["data: never read"] ⟨[⟨"x", "", "stop"⟩], none⟩ ⟨"x", "", "stop"⟩ []
    (by decide) (by decide) rfl rfl
  simpa using h

/-! ### C3: LocalServerA streaming semantics -/

/-- C3: for the `ollama` provider in streaming mode every non-empty line is
decoded as one JSON object; a non-empty `error` aborts the sequence with
the in-band provider error, a non-empty `message.content` is emitted as a
chunk, `done == true` terminates the sequence successfully after that
chunk, and the two-line feed `Hi`/`done` yields exactly `["Hi"]` then
Done. -/
theorem claim3 :
    (∀ (p : Provider) (lines : List String), p = Provider.ollama →
      parseStream p lines = ollamaLoop lines) ∧
    (∀ (line : String) (rest : List String) (chunk : OllamaResponse),
      line ≠ "" → unmarshalOllama line = some chunk → chunk.error ≠ "" →
        ollamaLoop (line :: rest) =
          ⟨[], StreamOutcome.aborted (StreamErr.ollamaStreamError chunk.error)⟩) ∧
    (∀ (line : String) (rest : List String) (chunk : OllamaResponse),
      line ≠ "" → unmarshalOllama line = some chunk → chunk.error = "" →
      chunk.done = true →
        ollamaLoop (line :: rest) =
          ⟨if chunk.messageContent ≠ "" then [chunk.messageContent] else [],
            StreamOutcome.done⟩) ∧
    (∀ (line : String) (rest : List String) (chunk : OllamaResponse),
      line ≠ "" → unmarshalOllama line = some chunk → chunk.error = "" →
      chunk.done = false →
        ollamaLoop (line :: rest) =
          ⟨(if chunk.messageContent ≠ "" then [chunk.messageContent] else []) ++
              (ollamaLoop rest).chunks,
            (ollamaLoop rest).outcome⟩) ∧
    ollamaLoop
      ["\x7b\"message\":\x7b\"content\":\"Hi\"\x7d,\"done\":false\x7d",
       "\x7b\"message\":\x7b\"content\":\"\"\x7d,\"done\":true\x7d"] =
      ⟨["Hi"], StreamOutcome.done⟩ := by
  refine ⟨?_, ?_, ?_, ?_, by decide⟩
  · intro p lines hp
    simp [parseStream, hp]
  · intro line rest chunk hne hdec herr
    simp [ollamaLoop, hne, hdec, herr]
  · intro line rest chunk hne hdec herr hdn
    simp [ollamaLoop, hne, hdec, herr, hdn]
  · intro line rest chunk hne hdec herr hdn
    simp [ollamaLoop, hne, hdec, herr, hdn]

/-- Witness for C3 at concrete inputs: an in-stream error aborts. -/
theorem claim3_witness :
    parseStream Provider.ollama ["\x7b\"error\":\"boom\"\x7d"] =
      ollamaLoop ["\x7b\"error\":\"boom\"\x7d"] ∧
    ollamaLoop ["\x7b\"error\":\"boom\"\x7d", "\x7b\"done\":true\x7d"] =
      ⟨[], StreamOutcome.aborted (StreamErr.ollamaStreamError "boom")⟩ := by
  refine ⟨claim3.1 Provider.ollama ["\x7b\"error\":\"boom\"\x7d"] rfl, ?_⟩
  exact claim3.2.1 "\x7b\"error\":\"boom\"\x7d" ["\x7b\"done\":true\x7d"]
    ⟨"", "", false, "boom"⟩ (by decide) (by decide) (by decide)

/-! ### C5: malformed lines are skipped -/

/-- C5: in streaming mode a line or frame whose JSON decode fails is
skipped and the sequence continues with the next line, for both framings;
such a malformed line between two valid frames neither aborts the sequence
nor changes the chunks of the valid frames. -/
theorem claim5 :
    (∀ (line : String) (rest : List String),
      strStartsWith line "data: " = true →
      strTrimStart line "data: " ≠ "[DONE]" →
      unmarshalOpenRouter (strTrimStart line "data: ") = none →
        sseLoop (line :: rest) = sseLoop rest) ∧
    (∀ (line : String) (rest : List String),
      line ≠ "" → unmarshalOllama line = none →
        ollamaLoop (line :: rest) = ollamaLoop rest) ∧
    sseLoop
      ["data: \x7b\"choices\":[\x7b\"delta\":\x7b\"content\":\"He\"\x7d\x7d]\x7d",
       "data: \x7bnot json\x7d",
       "data: \x7b\"choices\":[\x7b\"delta\":\x7b\"content\":\"llo\"\x7d\x7d]\x7d",
       "data: [DONE]"] = ⟨["He", "llo"], StreamOutcome.done⟩ ∧
    ollamaLoop
      ["\x7b\"message\":\x7b\"content\":\"Hi\"\x7d,\"done\":false\x7d",
       "not json",
       "\x7b\"done\":true\x7d"] = ⟨["Hi"], StreamOutcome.done⟩ := by
  refine ⟨?_, ?_, by decide, by decide⟩
  · intro line rest hpre hdone hdec
    have hne := ne_empty_of_startsWith _ hpre
    simp [sseLoop, hne, hpre, hdone, hdec]
  · intro line rest hne hdec
    simp [ollamaLoop, hne, hdec]

/-- Witness for C5 at a concrete malformed line for each framing. -/
theorem claim5_witness :
    sseLoop ["data: \x7bnot json\x7d", "data: [DONE]"] = sseLoop ["data: [DONE]"] ∧
    ollamaLoop ["not json", "\x7b\"done\":true\x7d"] = ollamaLoop ["\x7b\"done\":true\x7d"] := by
  constructor
  · exact claim5.1 "data: \x7bnot json\x7d" ["data: [DONE]"] (by decide) (by decide) (by decide)
  · exact claim5.2.1 "not json" ["\x7b\"done\":true\x7d"] (by decide) (by decide)

/-! ### C6: EOF without a termination signal is Done -/

/-- If no SSE line carries a termination signal, the loop runs off the end
of the input (EOF), keeps every emitted chunk, and ends as Done. -/
theorem sseLoop_nonterminal (lines : List String)
    (h : ∀ l ∈ lines, sseNonTerminal l = true) :
    sseLoop lines = ⟨lines.flatMap sseEmitted, StreamOutcome.done⟩ := by
  induction lines with
  | nil => rfl
  | cons line rest ih =>
    have hl : sseNonTerminal line = true := h line (by simp)
    have ht : ∀ l ∈ rest, sseNonTerminal l = true := fun l hm => h l (by simp [hm])
    by_cases hskip : line = "" ∨ ¬ strStartsWith line "data: "
    · have hcond : line = "" ∨ strStartsWith line "data: " = false := by
        rcases hskip with h1 | h1
        · exact Or.inl h1
        · exact Or.inr (by simpa using h1)
      simp [sseLoop, sseEmitted, hcond, ih ht]
    · push_neg at hskip
      obtain ⟨hne, hpre⟩ := hskip
      by_cases hdone : strTrimStart line "data: " = "[DONE]"
      · exfalso
        simp [sseNonTerminal, hne, hpre, hdone] at hl
      · cases hdec : unmarshalOpenRouter (strTrimStart line "data: ") with
        | none => simp [sseLoop, sseEmitted, hne, hpre, hdone, hdec, ih ht]
        | some chunk =>
          cases herr : chunk.error with
          | some e =>
            exfalso
            simp [sseNonTerminal, hne, hpre, hdone, hdec, herr] at hl
          | none =>
            cases hch : chunk.choices with
            | nil => simp [sseLoop, sseEmitted, hne, hpre, hdone, hdec, herr, hch, ih ht]
            | cons choice tl =>
              have hfr : choice.finishReason = "" := by
                simpa [sseNonTerminal, hne, hpre, hdone, hdec, herr, hch] using hl
              simp [sseLoop, sseEmitted, hne, hpre, hdone, hdec, herr, hch, hfr, ih ht]

/-- If no local-native line carries a termination signal, the loop runs off
the end of the input, keeps every emitted chunk, and ends as Done. -/
theorem ollamaLoop_nonterminal (lines : List String)
    (h : ∀ l ∈ lines, ollamaNonTerminal l = true) :
    ollamaLoop lines = ⟨lines.flatMap ollamaEmitted, StreamOutcome.done⟩ := by
  induction lines with
  | nil => rfl
  | cons line rest ih =>
    have hl : ollamaNonTerminal line = true := h line (by simp)
    have ht : ∀ l ∈ rest, ollamaNonTerminal l = true := fun l hm => h l (by simp [hm])
    by_cases hne : line = ""
    · simp [ollamaLoop, ollamaEmitted, hne, ih ht]
    · cases hdec : unmarshalOllama line with
      | none => simp [ollamaLoop, ollamaEmitted, hne, hdec, ih ht]
      | some chunk =>
        have hl2 : chunk.error = "" ∧ chunk.done = false := by
          simpa [ollamaNonTerminal, hne, hdec] using hl
        simp [ollamaLoop, ollamaEmitted, hne, hdec, hl2.1, hl2.2, ih ht]

/-- C6: in streaming mode for every provider, if the byte stream ends (the
scanner reaches EOF) without any termination signal — no `[DONE]` marker,
no non-empty `finish_reason`, no `done == true`, no in-band error — the
sequence terminates successfully as Done, and every chunk emitted before
the EOF is retained, in order. -/
theorem claim6 (p : Provider) (lines : List String)
    (h : ∀ l ∈ lines, lineNonTerminal p l = true) :
    parseStream p lines = ⟨lines.flatMap (lineEmitted p), StreamOutcome.done⟩ := by
  by_cases hp : p = Provider.ollama
  · subst hp
    have h2 : ∀ l ∈ lines, ollamaNonTerminal l = true := fun l hm => by
      simpa [lineNonTerminal] using h l hm
    have hfun : lineEmitted Provider.ollama = ollamaEmitted :=
      funext fun l => by simp [lineEmitted]
    rw [hfun]
    simp [parseStream, ollamaLoop_nonterminal lines h2]
  · have h2 : ∀ l ∈ lines, sseNonTerminal l = true := fun l hm => by
      simpa [lineNonTerminal, hp] using h l hm
    have hfun : lineEmitted p = sseEmitted :=
      funext fun l => by simp [lineEmitted, hp]
    rw [hfun]
    simp [parseStream, hp, sseLoop_nonterminal lines h2]

/-- Witness for C6: two content frames then EOF, for each framing. -/
theorem claim6_witness :
    parseStream Provider.openrouter
      ["data: \x7b\"choices\":[\x7b\"delta\":\x7b\"content\":\"He\"\x7d\x7d]\x7d",
       "data: \x7b\"choices\":[\x7b\"delta\":\x7b\"content\":\"llo\"\x7d\x7d]\x7d"] =
      ⟨["He", "llo"], StreamOutcome.done⟩ ∧
    parseStream Provider.ollama
      ["\x7b\"message\":\x7b\"content\":\"Hi\"\x7d,\"done\":false\x7d"] =
      ⟨["Hi"], StreamOutcome.done⟩ := by
  constructor
  · have h := claim6 Provider.openrouter
      ["data: \x7b\"choices\":[\x7b\"delta\":\x7b\"content\":\"He\"\x7d\x7d]\x7d",
       "data: \x7b\"choices\":[\x7b\"delta\":\x7b\"content\":\"llo\"\x7d\x7d]\x7d"]
      (by decide)
    rw [h]
    decide
  · have h := claim6 Provider.ollama
      ["\x7b\"message\":\x7b\"content\":\"Hi\"\x7d,\"done\":false\x7d"] (by decide)
    rw [h]
    decide


/-! ### C9: serialize / deserialize roundtrip of the request body -/

/-- The encoder's hexadecimal digits decode back. -/
theorem hexVal_hexDigit : ∀ n < 16, hexVal (hexDigit n) = some n := by decide

/-- Step equation of the string lexer: closing quote. -/
theorem lexStr_quote (t : List Char) : lexStr ('\"' :: t) = some ([], t) := by
  simp [lexStr.eq_def]

/-- Step equation of the string lexer: a plain character is consumed. -/
theorem lexStr_plain (c : Char) (t : List Char) (h1 : c ≠ '\"') (h2 : c ≠ '\\')
    (h3 : ¬ c.toNat < 32) :
    lexStr (c :: t) = (lexStr t).map (fun q => (c :: q.1, q.2)) := by
  rw [lexStr.eq_def]
  simp only [h1, h2, h3, if_false, ite_false]

/-- Step equation of the string lexer: a short escape is decoded. -/
theorem lexStr_escShort (e d : Char) (t : List Char) (hu : e ≠ 'u')
    (hd : unescapeShort e = some d) :
    lexStr ('\\' :: e :: t) = (lexStr t).map (fun q => (d :: q.1, q.2)) := by
  rw [lexStr.eq_def]
  simp only [hu, hd, if_false, ite_false, if_true, ite_true]
  simp

/-- Step equation of the string lexer: a `\uXXXX` escape is decoded. -/
theorem lexStr_escU (h1 h2 h3 h4 : Char) (a b c d : Nat) (t : List Char)
    (e1 : hexVal h1 = some a) (e2 : hexVal h2 = some b)
    (e3 : hexVal h3 = some c) (e4 : hexVal h4 = some d) :
    lexStr ('\\' :: 'u' :: h1 :: h2 :: h3 :: h4 :: t) =
      (lexStr t).map
        (fun q => (Char.ofNat (((a * 16 + b) * 16 + c) * 16 + d) :: q.1, q.2)) := by
  rw [lexStr.eq_def]
  simp only [e1, e2, e3, e4, if_true, ite_true]
  simp

/-- The string lexer inverts the encoder's escaping: lexing the escaped
characters followed by a closing quote yields the original characters. -/
theorem lexStr_escape (cs : List Char) (rest : List Char) :
    lexStr (cs.flatMap escapeChar ++ '\"' :: rest) = some (cs, rest) := by
  induction cs with
  | nil => simpa using lexStr_quote rest
  | cons c cs ih =>
    rw [List.flatMap_cons, List.append_assoc]
    by_cases hc1 : c = '\"'
    · rw [hc1, show escapeChar '\"' = ['\\', '\"'] from by decide]
      simp only [List.cons_append, List.nil_append]
      rw [lexStr_escShort '\"' '\"' _ (by decide) (by decide), ih]
      rfl
    · by_cases hc2 : c = '\\'
      · rw [hc2, show escapeChar '\\' = ['\\', '\\'] from by decide]
        simp only [List.cons_append, List.nil_append]
        rw [lexStr_escShort '\\' '\\' _ (by decide) (by decide), ih]
        rfl
      · by_cases hc3 : c = '\n'
        · rw [hc3, show escapeChar '\n' = ['\\', 'n'] from by decide]
          simp only [List.cons_append, List.nil_append]
          rw [lexStr_escShort 'n' '\n' _ (by decide) (by decide), ih]
          rfl
        · by_cases hc4 : c = '\r'
          · rw [hc4, show escapeChar '\r' = ['\\', 'r'] from by decide]
            simp only [List.cons_append, List.nil_append]
            rw [lexStr_escShort 'r' '\r' _ (by decide) (by decide), ih]
            rfl
          · by_cases hc5 : c = '\t'
            · rw [hc5, show escapeChar '\t' = ['\\', 't'] from by decide]
              simp only [List.cons_append, List.nil_append]
              rw [lexStr_escShort 't' '\t' _ (by decide) (by decide), ih]
              rfl
            · by_cases hc6 : c.toNat < 32 ∨ c = '<' ∨ c = '>' ∨ c = '&'
              · have hesc : escapeChar c =
                    ['\\', 'u', '0', '0', hexDigit (c.toNat / 16), hexDigit (c.toNat % 16)] := by
                  unfold escapeChar
                  rw [if_neg hc1, if_neg hc2, if_neg hc3, if_neg hc4, if_neg hc5, if_pos hc6]
                have hdiv : c.toNat / 16 < 16 := by
                  have hlt : c.toNat < 256 := by
                    rcases hc6 with h | h | h | h
                    · omega
                    · subst h; decide
                    · subst h; decide
                    · subst h; decide
                  omega
                have hmod : c.toNat % 16 < 16 := Nat.mod_lt _ (by norm_num)
                rw [hesc]
                simp only [List.cons_append, List.nil_append]
                rw [lexStr_escU '0' '0' _ _ 0 0 _ _ _ (by decide) (by decide)
                  (hexVal_hexDigit _ hdiv) (hexVal_hexDigit _ hmod), ih]
                have harith : c.toNat / 16 * 16 + c.toNat % 16 = c.toNat := by omega
                simp [harith, Char.ofNat_toNat]
              · by_cases hc7 : c.toNat = 8232 ∨ c.toNat = 8233
                · have hesc : escapeChar c =
                      ['\\', 'u', '2', '0', '2', hexDigit (c.toNat % 16)] := by
                    unfold escapeChar
                    rw [if_neg hc1, if_neg hc2, if_neg hc3, if_neg hc4, if_neg hc5,
                      if_neg hc6, if_pos hc7]
                  have hmod : c.toNat % 16 < 16 := Nat.mod_lt _ (by norm_num)
                  rw [hesc]
                  simp only [List.cons_append, List.nil_append]
                  rw [lexStr_escU '2' '0' '2' _ 2 0 2 _ _ (by decide) (by decide) (by decide)
                    (hexVal_hexDigit _ hmod), ih]
                  have harith : 8224 + c.toNat % 16 = c.toNat := by
                    rcases hc7 with h | h <;> omega
                  simp [harith, Char.ofNat_toNat]
                · have hesc : escapeChar c = [c] := by
                    unfold escapeChar
                    rw [if_neg hc1, if_neg hc2, if_neg hc3, if_neg hc4, if_neg hc5,
                      if_neg hc6, if_neg hc7]
                  have hge : ¬ c.toNat < 32 := fun h => hc6 (Or.inl h)
                  rw [hesc]
                  simp only [List.cons_append, List.nil_append]
                  rw [lexStr_plain c _ hc1 hc2 hge, ih]
                  rfl

/-- Lexing a key whose characters need no escaping. -/
theorem lexStr_plainKey (ks rest : List Char) (hplain : ks.flatMap escapeChar = ks) :
    lexStr (ks ++ '\"' :: rest) = some (ks, rest) := by
  have h := lexStr_escape ks rest
  rwa [hplain] at h

/-- Parsing a marshalled string literal recovers it. -/
theorem parse_marshalString (s : String) (rest : List Char) (n : Nat) :
    parseCore (n + 1) PMode.pv (marshalStringChars s ++ rest) =
      some (PRes.rv (Json.str s), rest) := by
  have hstr := lexStr_escape s.data rest
  simp [marshalStringChars, parseCore, skipWs, List.cons_append, List.append_assoc,
    List.singleton_append, hstr]

/-- Lexing the `role` key. -/
theorem lexStr_keyRole (t : List Char) :
    lexStr ('r' :: 'o' :: 'l' :: 'e' :: '\"' :: t) = some (['r', 'o', 'l', 'e'], t) := by
  have h := lexStr_plainKey ['r', 'o', 'l', 'e'] t (by decide)
  simpa using h

/-- Lexing the `content` key. -/
theorem lexStr_keyContent (t : List Char) :
    lexStr ('c' :: 'o' :: 'n' :: 't' :: 'e' :: 'n' :: 't' :: '\"' :: t) =
      some (['c', 'o', 'n', 't', 'e', 'n', 't'], t) := by
  have h := lexStr_plainKey ['c', 'o', 'n', 't', 'e', 'n', 't'] t (by decide)
  simpa using h

/-- Parsing a marshalled `ChatMessage` recovers its object form. -/
theorem parse_marshalMsg (m : ChatMessage) (rest : List Char) (n : Nat) :
    parseCore (n + 4) PMode.pv (marshalMsgChars m ++ rest) =
      some (PRes.rv (Json.obj [("role", Json.str m.role), ("content", Json.str m.content)]),
        rest) := by
  have hmkRole : String.mk ['r', 'o', 'l', 'e'] = "role" := rfl
  have hmkContent : String.mk ['c', 'o', 'n', 't', 'e', 'n', 't'] = "content" := rfl
  rw [show marshalMsgChars m ++ rest =
    '\x7b' :: '\"' :: 'r' :: 'o' :: 'l' :: 'e' :: '\"' :: ':' ::
      (marshalStringChars m.role ++ (',' :: '\"' :: 'c' :: 'o' :: 'n' :: 't' :: 'e' :: 'n' ::
        't' :: '\"' :: ':' :: (marshalStringChars m.content ++ ('\x7d' :: rest)))) from by
    simp [marshalMsgChars, List.cons_append, List.append_assoc]]
  have hmkEta : ∀ s : String, String.mk s.data = s := fun s => rfl
  simp [parseCore, skipWs, marshalStringChars, lexStr_keyRole, lexStr_keyContent,
    lexStr_escape, hmkRole, hmkContent, hmkEta]

/-- Lexing the `model` key. -/
theorem lexStr_keyModel (t : List Char) :
    lexStr ('m' :: 'o' :: 'd' :: 'e' :: 'l' :: '\"' :: t) =
      some (['m', 'o', 'd', 'e', 'l'], t) := by
  have h := lexStr_plainKey ['m', 'o', 'd', 'e', 'l'] t (by decide)
  simpa using h

/-- Lexing the `messages` key. -/
theorem lexStr_keyMessages (t : List Char) :
    lexStr ('m' :: 'e' :: 's' :: 's' :: 'a' :: 'g' :: 'e' :: 's' :: '\"' :: t) =
      some (['m', 'e', 's', 's', 'a', 'g', 'e', 's'], t) := by
  have h := lexStr_plainKey ['m', 'e', 's', 's', 'a', 'g', 'e', 's'] t (by decide)
  simpa using h

/-- Lexing the `stream` key. -/
theorem lexStr_keyStream (t : List Char) :
    lexStr ('s' :: 't' :: 'r' :: 'e' :: 'a' :: 'm' :: '\"' :: t) =
      some (['s', 't', 'r', 'e', 'a', 'm'], t) := by
  have h := lexStr_plainKey ['s', 't', 'r', 'e', 'a', 'm'] t (by decide)
  simpa using h

/-- The JSON object a `ChatMessage` serializes to. -/
def msgJson (m : ChatMessage) : Json :=
  Json.obj [("role", Json.str m.role), ("content", Json.str m.content)]

/-- Parsing the marshalled typed body with `stream = true`. -/
theorem parse_marshalTypedTrue (M : String) (m : ChatMessage) (rest : List Char) (n : Nat) :
    parseCore (n + 9) PMode.pv
        (marshalReqBodyChars (ReqBody.typed ⟨M, [m], true⟩) ++ rest) =
      some (PRes.rv (Json.obj [("model", Json.str M),
        ("messages", Json.arr [msgJson m]), ("stream", Json.bool true)]), rest) := by
  have hmkRole : String.mk ['r', 'o', 'l', 'e'] = "role" := rfl
  have hmkContent : String.mk ['c', 'o', 'n', 't', 'e', 'n', 't'] = "content" := rfl
  have hmkModel : String.mk ['m', 'o', 'd', 'e', 'l'] = "model" := rfl
  have hmkMessages : String.mk ['m', 'e', 's', 's', 'a', 'g', 'e', 's'] = "messages" := rfl
  have hmkStream : String.mk ['s', 't', 'r', 'e', 'a', 'm'] = "stream" := rfl
  have hmkEta : ∀ s : String, String.mk s.data = s := fun s => rfl
  simp [marshalReqBodyChars, marshalMessagesChars, marshalMsgChars, marshalStringChars,
    List.intercalate, List.intersperse, parseCore, skipWs, lexStr_keyRole,
    lexStr_keyContent, lexStr_keyModel, lexStr_keyMessages, lexStr_keyStream,
    lexStr_escape, hmkRole, hmkContent, hmkModel, hmkMessages, hmkStream, hmkEta,
    msgJson]

/-- Parsing the marshalled typed body with `stream = false` (the `stream`
field is omitted). -/
theorem parse_marshalTypedFalse (M : String) (m : ChatMessage) (rest : List Char) (n : Nat) :
    parseCore (n + 9) PMode.pv
        (marshalReqBodyChars (ReqBody.typed ⟨M, [m], false⟩) ++ rest) =
      some (PRes.rv (Json.obj [("model", Json.str M),
        ("messages", Json.arr [msgJson m])]), rest) := by
  have hmkRole : String.mk ['r', 'o', 'l', 'e'] = "role" := rfl
  have hmkContent : String.mk ['c', 'o', 'n', 't', 'e', 'n', 't'] = "content" := rfl
  have hmkModel : String.mk ['m', 'o', 'd', 'e', 'l'] = "model" := rfl
  have hmkMessages : String.mk ['m', 'e', 's', 's', 'a', 'g', 'e', 's'] = "messages" := rfl
  have hmkEta : ∀ s : String, String.mk s.data = s := fun s => rfl
  simp [marshalReqBodyChars, marshalMessagesChars, marshalMsgChars, marshalStringChars,
    List.intercalate, List.intersperse, parseCore, skipWs, lexStr_keyRole,
    lexStr_keyContent, lexStr_keyModel, lexStr_keyMessages, lexStr_escape,
    hmkRole, hmkContent, hmkModel, hmkMessages, hmkEta, msgJson]

/-- Parsing the marshalled untyped (map) body: keys in sorted order and
`stream` always present. -/
theorem parse_marshalUntyped (M : String) (m : ChatMessage) (st : Bool)
    (rest : List Char) (n : Nat) :
    parseCore (n + 9) PMode.pv
        (marshalReqBodyChars (ReqBody.untyped M [m] st) ++ rest) =
      some (PRes.rv (Json.obj [("messages", Json.arr [msgJson m]),
        ("model", Json.str M), ("stream", Json.bool st)]), rest) := by
  have hmkRole : String.mk ['r', 'o', 'l', 'e'] = "role" := rfl
  have hmkContent : String.mk ['c', 'o', 'n', 't', 'e', 'n', 't'] = "content" := rfl
  have hmkModel : String.mk ['m', 'o', 'd', 'e', 'l'] = "model" := rfl
  have hmkMessages : String.mk ['m', 'e', 's', 's', 'a', 'g', 'e', 's'] = "messages" := rfl
  have hmkStream : String.mk ['s', 't', 'r', 'e', 'a', 'm'] = "stream" := rfl
  have hmkEta : ∀ s : String, String.mk s.data = s := fun s => rfl
  cases st <;>
    simp [marshalReqBodyChars, marshalMessagesChars, marshalMsgChars, marshalStringChars,
      List.intercalate, List.intersperse, parseCore, skipWs, lexStr_keyRole,
      lexStr_keyContent, lexStr_keyModel, lexStr_keyMessages, lexStr_keyStream,
      lexStr_escape, hmkRole, hmkContent, hmkModel, hmkMessages, hmkStream, hmkEta,
      msgJson]

/-- The serialized request body of any built request parses back to its
JSON object form. -/
theorem parseJson_marshalReqBody (p : Provider) (M input : String) (st : Bool) :
    parseJson (marshalReqBody (buildReqBody p M input st)) =
      some (if p = Provider.ollama then
          Json.obj [("messages", Json.arr [msgJson ⟨"user", input⟩]),
            ("model", Json.str M), ("stream", Json.bool st)]
        else if st then
          Json.obj [("model", Json.str M),
            ("messages", Json.arr [msgJson ⟨"user", input⟩]), ("stream", Json.bool true)]
        else
          Json.obj [("model", Json.str M),
            ("messages", Json.arr [msgJson ⟨"user", input⟩])]) := by
  by_cases hp : p = Provider.ollama
  · have h := parse_marshalUntyped M ⟨"user", input⟩ st []
      (2 * (marshalReqBodyChars (ReqBody.untyped M [⟨"user", input⟩] st)).length)
    rw [List.append_nil] at h
    simp [parseJson, parseValue, marshalReqBody, buildReqBody, hp, h, skipWs]
  · cases st with
    | true =>
      have h := parse_marshalTypedTrue M ⟨"user", input⟩ []
        (2 * (marshalReqBodyChars (ReqBody.typed ⟨M, [⟨"user", input⟩], true⟩)).length)
      rw [List.append_nil] at h
      simp [parseJson, parseValue, marshalReqBody, buildReqBody, hp, h, skipWs]
    | false =>
      have h := parse_marshalTypedFalse M ⟨"user", input⟩ []
        (2 * (marshalReqBodyChars (ReqBody.typed ⟨M, [⟨"user", input⟩], false⟩)).length)
      rw [List.append_nil] at h
      simp [parseJson, parseValue, marshalReqBody, buildReqBody, hp, h, skipWs]

/-- C9: for every prompt accepted by the builder (any prompt with non-empty
trimmed text) and every provider, deserializing the serialized request body
yields a messages list with exactly one entry whose role is `user` and
whose content is the trimmed prompt; and building twice with identical
arguments produces byte-identical serialized output. -/
theorem claim9 (p : Provider) (M prompt : String) (st : Bool) (body : ReqBody)
    (hb : buildRequest p M prompt st = Except.ok body) :
    unmarshalMessages (marshalReqBody body) = some [⟨"user", goTrimSpace prompt⟩] ∧
    ∀ body2, buildRequest p M prompt st = Except.ok body2 →
      marshalReqBody body2 = marshalReqBody body := by
  by_cases h : goTrimSpace prompt = ""
  · simp [buildRequest, prepareInput, h, Except.map] at hb
  · have hbody : buildReqBody p M (goTrimSpace prompt) st = body := by
      simpa [buildRequest, prepareInput, h, Except.map] using hb
    subst hbody
    refine ⟨?_, ?_⟩
    · have hj := parseJson_marshalReqBody p M (goTrimSpace prompt) st
      by_cases hp : p = Provider.ollama
      · simp [hp] at hj
        simp [unmarshalMessages, hj, hp, decodeList, mapOption, decodeChatMessage,
          decodeStr, getFieldCI, keyFold, lowerCh, msgJson]
      · cases st with
        | true =>
          simp [hp] at hj
          simp [unmarshalMessages, hj, hp, decodeList, mapOption, decodeChatMessage,
            decodeStr, getFieldCI, keyFold, lowerCh, msgJson]
        | false =>
          simp [hp] at hj
          simp [unmarshalMessages, hj, hp, decodeList, mapOption, decodeChatMessage,
            decodeStr, getFieldCI, keyFold, lowerCh, msgJson]
    · intro body2 hb2
      have hbody2 : buildReqBody p M (goTrimSpace prompt) st = body2 := by
        simpa [buildRequest, prepareInput, h, Except.map] using hb2
      rw [← hbody2]

/-- Witness for C9 at concrete inputs (prompt with surrounding whitespace,
one provider of each serialization shape). -/
theorem claim9_witness :
    unmarshalMessages (marshalReqBody (buildReqBody Provider.openrouter "m1" "hi" true)) =
      some [⟨"user", "hi"⟩] ∧
    unmarshalMessages (marshalReqBody (buildReqBody Provider.ollama "llama2" "hi" false)) =
      some [⟨"user", "hi"⟩] := by
  constructor
  · have h := (claim9 Provider.openrouter "m1" " hi " true
      (buildReqBody Provider.openrouter "m1" "hi" true) (by decide)).1
    have ht : goTrimSpace " hi " = "hi" := by decide
    rw [ht] at h
    exact h
  · have h := (claim9 Provider.ollama "llama2" " hi " false
      (buildReqBody Provider.ollama "llama2" "hi" false) (by decide)).1
    have ht : goTrimSpace " hi " = "hi" := by decide
    rw [ht] at h
    exact h
